import Mathlib

/-!
Verification of the WealthwiseAI transaction ingestion and reconciliation
pipeline (src/App.tsx, src/geminiService.ts) against its specification.

Modelling conventions:
* JavaScript numbers are idealised as exact rationals (`ℚ`); the claims under
  study involve only additions, subtractions and comparisons, for which float
  rounding is immaterial at the magnitudes used.  `NaN` has no rational
  counterpart; the one place it could arise (an unparsable CSV amount field)
  is modelled by dropping the row, and no claim concerns such a row.
* JavaScript string operations (`toLowerCase`, `includes`, `split`, `trim`)
  are modelled structurally on `List Char` (ASCII-adequate for all data in
  the repository), because the host `String` functions do not reduce in the
  kernel.
* React state (`accounts`, `transactions`) is modelled as an explicit
  `AppState`; a handler is a function on that state.  A JavaScript runtime
  exception (undefined property access) is modelled as `Option.none`, in
  which case no state update happens (the exception fires before any
  `setAccounts`/`setTransactions` call).
* Transaction ids (`Date.now() + i + ''` in the source) are modelled as the
  natural number `now + i`; only their identity matters to the claims.
-/

namespace WealthWise

/-! ## Character/string utilities (JS `toLowerCase`, `includes`, `split`, `trim`) -/

/-- JS `toLowerCase`, ASCII fragment, on character lists. -/
def lowerL (cs : List Char) : List Char := cs.map Char.toLower

/-- Does `needle` occur at the very start of `hay`? -/
def listLeads : List Char → List Char → Bool
  | [], _ => true
  | _ :: _, [] => false
  | a :: as, b :: bs => a == b && listLeads as bs

/-- JS `hay.includes(needle)`: `needle` occurs contiguously inside `hay`. -/
def listHasSub : List Char → List Char → Bool
  | [], needle => needle.isEmpty
  | c :: t, needle => listLeads needle (c :: t) || listHasSub t needle

/-- JS `hay.toLowerCase().includes(needle.toLowerCase())`. -/
def lowerIncludes (hay needle : String) : Bool :=
  listHasSub (lowerL hay.toList) (lowerL needle.toList)

/-- JS `String.prototype.split(sep)` for a one-character separator. -/
def splitL (sep : Char) : List Char → List (List Char)
  | [] => [[]]
  | c :: t =>
    if c == sep then [] :: splitL sep t
    else
      match splitL sep t with
      | [] => [[c]]
      | h :: r => (c :: h) :: r

/-- Whitespace characters recognised by the model of JS `trim`. -/
def isWs (c : Char) : Bool := c == ' ' || c == '\t' || c == '\r' || c == '\n'

/-- JS `String.prototype.trim` on character lists. -/
def trimL (cs : List Char) : List Char :=
  ((cs.dropWhile isWs).reverse.dropWhile isWs).reverse

/-- JS `trim` on strings. -/
def trimS (s : String) : String := (trimL s.toList).asString

/-- Value of a list of decimal digit characters. -/
def digitsVal (cs : List Char) : ℕ :=
  cs.foldl (fun n c => 10 * n + (c.toNat - 48)) 0

/-- Model of JS `parseFloat` on character lists: skip leading whitespace, an
optional sign, then the longest prefix `digits[.digits]`; anything after that
prefix is ignored, and `none` models the `NaN` result when no digit is read.
(Exponent notation and `Infinity` are not modelled; no repository data or
claim uses them.) -/
def jsParseFloatL (cs0 : List Char) : Option ℚ :=
  let cs := cs0.dropWhile isWs
  let signed : Bool × List Char :=
    match cs with
    | '-' :: t => (true, t)
    | '+' :: t => (false, t)
    | _ => (false, cs)
  let intPart := signed.2.takeWhile Char.isDigit
  let rest := signed.2.dropWhile Char.isDigit
  let fracPart :=
    match rest with
    | '.' :: t => t.takeWhile Char.isDigit
    | _ => []
  if intPart.isEmpty && fracPart.isEmpty then none
  else
    let v : ℚ := (digitsVal intPart : ℚ) + (digitsVal fracPart : ℚ) / (10 : ℚ) ^ fracPart.length
    some (if signed.1 then -v else v)

/-- JS `parseFloat` on strings. -/
def jsParseFloat (s : String) : Option ℚ := jsParseFloatL s.toList

/-! ## Data model (src/types, the second document of src/geminiService.ts) -/

/-- An account of the directory (`Account` in the source; the optional
banking-detail fields are omitted, no claim mentions them). -/
structure Account where
  id : String
  userId : String
  name : String
  type : String
  balance : ℚ
deriving DecidableEq, Repr

/-- A committed ledger transaction (`Transaction` in the source). -/
structure Transaction where
  id : ℕ
  date : String
  description : String
  amount : ℚ
  type : String
  category : String
  subCategory : String
  accountId : String
deriving DecidableEq, Repr

/-- A staged candidate (`ParsedTransactionData` in the source; the ephemeral
staging `id` used only for in-batch editing is omitted). -/
structure ParsedTransactionData where
  date : String
  description : String
  amount : ℚ
  type : String
  category : String
  subCategory : String
  accountNameMatch : String
  isDuplicate : Bool := false
  duplicateWarning : String := ""
deriving DecidableEq, Repr

/-- The mutable application state touched by the pipeline: the account
directory and the committed ledger. -/
structure AppState where
  accounts : List Account
  transactions : List Transaction
deriving DecidableEq, Repr

/-- First entry of `INITIAL_ACCOUNTS` from src/App.tsx. -/
def hdfcInit : Account :=
  { id := "1", userId := "u1", name := "HDFC Savings", type := "SAVINGS", balance := 50000 }

/-- Second entry of `INITIAL_ACCOUNTS` from src/App.tsx. -/
def cashInit : Account :=
  { id := "2", userId := "u1", name := "Cash Wallet", type := "WALLET", balance := 2000 }

/-- `INITIAL_ACCOUNTS` from src/App.tsx. -/
def INITIAL_ACCOUNTS : List Account := [hdfcInit, cashInit]

/-! ## Account resolution and commit (`confirmTransactions`, src/App.tsx 210-237) -/

/-- JS `Array.prototype.findIndex`, with `none` for the `-1` result. -/
def findIdxO (p : α → Bool) : List α → Option ℕ
  | [] => none
  | a :: l => if p a then some 0 else (findIdxO p l).map (fun n => n + 1)

/-- The account lookup performed inside `confirmTransactions`:
`updatedAccounts.findIndex(a => a.name.toLowerCase().includes(p.accountNameMatch.toLowerCase()))`. -/
def resolveIdx (accounts : List Account) (hint : String) : Option ℕ :=
  findIdxO (fun a => lowerIncludes a.name hint) accounts

/-- The `Transaction` record literal built inside `confirmTransactions`
(`date: p.date || new Date().toISOString()`). -/
def mkLedgerTx (nowISO : String) (now i : ℕ) (p : ParsedTransactionData)
    (accId : String) : Transaction :=
  { id := now + i
    date := if p.date = "" then nowISO else p.date
    description := p.description
    amount := p.amount
    type := p.type
    category := p.category
    subCategory := p.subCategory
    accountId := accId }

/-- The in-place balance mutation of `confirmTransactions`:
`if (tx.type === INCOME) acc.balance += tx.amount; else acc.balance -= tx.amount`. -/
def applyDelta (acc : Account) (p : ParsedTransactionData) : Account :=
  if p.type = "INCOME" then { acc with balance := acc.balance + p.amount }
  else { acc with balance := acc.balance - p.amount }

/-- The `previewData.forEach` loop of `confirmTransactions`.  `i` is the loop
index (used for the fresh id), `updatedAccounts` the working copy of the
directory, `newTxs` the accumulated new ledger entries.  An out-of-range
fallback access `updatedAccounts[0]` on an empty directory (undefined
dereference, a thrown `TypeError` in the source) is `none`. -/
def confirmGo (nowISO : String) (now : ℕ) :
    ℕ → List Account → List Transaction → List ParsedTransactionData →
    Option (List Account × List Transaction)
  | _, updatedAccounts, newTxs, [] => some (updatedAccounts, newTxs)
  | i, updatedAccounts, newTxs, p :: ps =>
    match updatedAccounts.get? ((resolveIdx updatedAccounts p.accountNameMatch).getD 0) with
    | none => none
    | some acc =>
      confirmGo nowISO now (i + 1)
        (updatedAccounts.set ((resolveIdx updatedAccounts p.accountNameMatch).getD 0) (applyDelta acc p))
        (newTxs ++ [mkLedgerTx nowISO now i p acc.id]) ps

/-- `confirmTransactions` (src/App.tsx 210-237): commit the staged batch,
prepending the new transactions to the ledger
(`setTransactions([...newTxs, ...transactions])`). -/
def confirmTransactions (nowISO : String) (now : ℕ)
    (previewData : List ParsedTransactionData) (st : AppState) : Option AppState :=
  (confirmGo nowISO now 0 st.accounts [] previewData).map fun r =>
    { accounts := r.1, transactions := r.2 ++ st.transactions }

/-! ## Transfers (`handleTransfer`, src/App.tsx 262-287) -/

/-- The per-account update of `handleTransfer`'s `accounts.map`: debit the
source id, credit the destination id, leave everything else alone.  Note the
source's first branch shadows the second, so a transfer whose source and
destination coincide is only debited. -/
def transferAdjust (fromId toId : String) (amount : ℚ) (a : Account) : Account :=
  if a.id == fromId then { a with balance := a.balance - amount }
  else if a.id == toId then { a with balance := a.balance + amount }
  else a

/-- `handleTransfer`: guard on falsy `from`/`to`/`amount`, look both accounts
up by id, debit the source, credit the destination, and prepend one
EXPENSE/Transfer/Internal transaction recorded against the source account. -/
def handleTransfer (st : AppState) (fromS toS : String) (amount : ℚ)
    (nowISO : String) (now : ℕ) : AppState :=
  if fromS = "" ∨ toS = "" ∨ amount = 0 then st
  else
    match st.accounts.find? (fun a => a.id == fromS),
          st.accounts.find? (fun a => a.id == toS) with
    | some fromAcc, some toAcc =>
      { accounts := st.accounts.map (transferAdjust fromAcc.id toAcc.id amount)
        transactions :=
          { id := now, date := nowISO
            description := "Transfer: " ++ fromAcc.name ++ " → " ++ toAcc.name
            amount := amount, type := "EXPENSE", category := "Transfer"
            subCategory := "Internal", accountId := fromAcc.id } :: st.transactions }
    | _, _ => st

/-! ## Ledger edit/delete (src/App.tsx 812-815 and 826-832) -/

/-- The delete button of the history tab:
`setTransactions(transactions.filter(x => x.id !== t.id))` — accounts untouched. -/
def deleteTransactionClick (st : AppState) (tid : ℕ) : AppState :=
  { st with transactions := st.transactions.filter fun x => !(x.id == tid) }

/-- The "Commit Change" button of the edit modal:
`setTransactions(transactions.map(x => x.id === editingTransaction.id ? editingTransaction : x))`
— accounts untouched. -/
def commitTransactionEdit (st : AppState) (editingTransaction : Transaction) : AppState :=
  { st with transactions := st.transactions.map fun x =>
      if x.id == editingTransaction.id then editingTransaction else x }

/-! ## CSV bulk import (`handleBulkImport`, src/App.tsx 180-208) -/

/-- One iteration of the `handleBulkImport` row loop: split on commas, demand
at least 6 fields, and build a candidate `date,description,amount,type,
category,accountName` with `subCategory: 'Imported'` and a trimmed account
hint.  A row whose amount field does not parse yields a `NaN` amount in the
source; such a row is dropped here (see the module comment), and no claim
concerns one. -/
def parseCsvRow (line : String) : Option ParsedTransactionData :=
  let parts := (splitL ',' line.toList).map List.asString
  if parts.length ≥ 6 then
    match jsParseFloat (parts.getD 2 "") with
    | some amt =>
      some { date := parts.getD 0 ""
             description := parts.getD 1 ""
             amount := amt
             type := parts.getD 3 ""
             category := parts.getD 4 ""
             subCategory := "Imported"
             accountNameMatch := trimS (parts.getD 5 "") }
    | none => none
  else none

/-- `handleBulkImport` on the file text: split into lines, skip the header
row (`for(let i=1; ...)`), and parse each remaining row. -/
def handleBulkImport (text : String) : List ParsedTransactionData :=
  (((splitL '\n' text.toList).map List.asString).drop 1).filterMap parseCsvRow

/-! ## Extraction adapter (`parseNaturalLanguageInput`, src/geminiService.ts 11-99)

The outbound generative call is an oracle; what the adapter does with each
oracle outcome is deterministic control flow, modelled exactly: the primary
attempt's `try` block, one fallback attempt inside the `catch`, and `null`
when both fail. -/

/-- Outcome of `JSON.parse` on a response text: it throws, yields an array of
objects, or yields a single object. -/
inductive JsonOutcome where
  | throwsErr : JsonOutcome
  | isArr : List ParsedTransactionData → JsonOutcome
  | isObj : ParsedTransactionData → JsonOutcome
deriving DecidableEq

/-- Outcome of one `ai.models.generateContent` call: a transport/schema
error (a thrown exception), a response with falsy `text`, or a response whose
`text` parses as `JsonOutcome` describes. -/
inductive GenResponse where
  | transportErr : GenResponse
  | noText : GenResponse
  | text : JsonOutcome → GenResponse
deriving DecidableEq

/-- Did the primary attempt fail in the sense of §4.1 (malformed response,
schema rejection, transport error), i.e. does control reach the `catch`? -/
def primaryFailed : GenResponse → Bool
  | GenResponse.transportErr => true
  | GenResponse.text JsonOutcome.throwsErr => true
  | _ => false

/-- `parseNaturalLanguageInput`, given the two oracle outcomes.  Returns the
adapter result (`none` models the `null` return) paired with the number of
fallback attempts actually issued. -/
def parseNaturalLanguageInput (primary fallback : GenResponse) :
    Option (List ParsedTransactionData) × ℕ :=
  match primary with
  | GenResponse.noText => (some [], 0)
  | GenResponse.text (JsonOutcome.isArr xs) => (some xs, 0)
  | GenResponse.text (JsonOutcome.isObj x) => (some [x], 0)
  | GenResponse.transportErr | GenResponse.text JsonOutcome.throwsErr =>
    match fallback with
    | GenResponse.text (JsonOutcome.isArr xs) => (some xs, 1)
    | GenResponse.text (JsonOutcome.isObj x) => (some [x], 1)
    | GenResponse.transportErr | GenResponse.noText
    | GenResponse.text JsonOutcome.throwsErr => (none, 1)

/-- The caller `processSmartEntry` (src/App.tsx 160-168): only a non-null
result replaces the staged preview (`if (results) setPreviewData(...)`); a
`null` result leaves `previewData` untouched, so a fresh session stays at
zero candidates. -/
def processSmartEntry (previewData : Option (List ParsedTransactionData))
    (results : Option (List ParsedTransactionData)) :
    Option (List ParsedTransactionData) :=
  match results with
  | some rs => some rs
  | none => previewData

/-! ## Duplicate detection (spec-modelled)

The repository only declares the flag fields `isDuplicate`/`duplicateWarning`
on `ParsedTransactionData` (src/geminiService.ts 275-288); no code under src/
computes them.  The detector below is therefore modelled from the spec
(§4.4): same resolved account, same calendar date, amount within a small
relative tolerance, and case/whitespace-folded description containment.
Note the spec's §4.4 sentence reads "matches or is contained within the
existing description" while its §8 example flags a candidate whose
description strictly contains the existing one; containment is therefore
modelled in either direction, which satisfies both. -/

/-- Modelled from the spec: case/whitespace folding of a description —
lowercase, collapse runs of spaces, trim. -/
def foldDesc (s : String) : String :=
  let words := (splitL ' ' (lowerL s.toList)).filter fun w => !w.isEmpty
  (List.intercalate [' '] words).asString

/-- Modelled from the spec: folded descriptions are equal or one contains
the other. -/
def descNearMatch (candDesc existingDesc : String) : Bool :=
  foldDesc candDesc == foldDesc existingDesc ||
  listHasSub (foldDesc candDesc).toList (foldDesc existingDesc).toList ||
  listHasSub (foldDesc existingDesc).toList (foldDesc candDesc).toList

/-- Modelled from the spec: "amount within a small relative tolerance",
taken as 1% of the existing entry's magnitude. -/
def amountNear (candAmt existingAmt : ℚ) : Bool :=
  100 * |candAmt - existingAmt| ≤ |existingAmt|

/-- Modelled from the spec: does ledger entry `t` make candidate `c`
(resolved to account id `accId`) a likely duplicate? -/
def isDupOf (c : ParsedTransactionData) (accId : String) (t : Transaction) : Bool :=
  t.accountId == accId && t.date == c.date &&
  amountNear c.amount t.amount && descNearMatch c.description t.description

/-- Modelled from the spec: `detect(candidate, existingLedger)` — the
candidate's hint is resolved against the directory exactly as the committer
resolves it, and the full existing ledger is scanned. -/
def detectDuplicate (accounts : List Account) (ledger : List Transaction)
    (c : ParsedTransactionData) : Bool :=
  match accounts.get? ((resolveIdx accounts c.accountNameMatch).getD 0) with
  | none => false
  | some acc => ledger.any (isDupOf c acc.id)

/-- Modelled from the spec: staging attaches the flag and warning text to
each flagged candidate, removing none. -/
def stageWithDuplicateFlags (accounts : List Account) (ledger : List Transaction)
    (cs : List ParsedTransactionData) : List ParsedTransactionData :=
  cs.map fun c =>
    if detectDuplicate accounts ledger c then
      { c with isDuplicate := true
               duplicateWarning := "Possible duplicate of an existing ledger entry" }
    else c

/-- Erase the advisory flag fields, for stating that staging changes nothing
else. -/
def forgetFlags (c : ParsedTransactionData) : ParsedTransactionData :=
  { c with isDuplicate := false, duplicateWarning := "" }

/-! ## Balance bookkeeping, the §3 invariant, and spec-side definitions -/

/-- Total of all balances in a directory. -/
def balanceSum (accounts : List Account) : ℚ :=
  (accounts.map Account.balance).sum

/-- The signed balance delta of a committed transaction
(§4.6: INCOME → `+amount`, anything else → `-amount`). -/
def signedDelta (t : Transaction) : ℚ :=
  if t.type = "INCOME" then t.amount else -t.amount

/-- The signed balance delta a candidate will contribute at commit. -/
def candDelta (p : ParsedTransactionData) : ℚ :=
  if p.type = "INCOME" then p.amount else -p.amount

/-- Declared opening balance of an account, from an association list. -/
def openingOf (openings : List (String × ℚ)) (aid : String) : ℚ :=
  (((openings.find? fun x => x.1 == aid).map Prod.snd).getD 0)

/-- Sum of the signed deltas of the ledger entries owned by one account. -/
def perAccountDeltaSum (txs : List Transaction) (aid : String) : ℚ :=
  ((txs.filter fun t => t.accountId == aid).map signedDelta).sum

/-- The §3 invariant: every balance equals its declared opening balance plus
the sum of the signed deltas of the transactions applied against it. -/
def ledgerInvariant (openings : List (String × ℚ)) (st : AppState) : Prop :=
  ∀ a ∈ st.accounts, a.balance = openingOf openings a.id + perAccountDeltaSum st.transactions a.id

/-- The matching policy exactly as the claim words it (spec §4.3), for
comparison with the source's `resolveIdx`: case-insensitive substring
containment in either direction — hint contains account name, or account
name contains hint. -/
def eitherDirMatch (a : Account) (hint : String) : Bool :=
  lowerIncludes a.name hint || lowerIncludes hint a.name

/-! ## Concrete states used in counterexamples and witnesses -/

/-- A directory from which the "Cash Wallet" account has been deleted. -/
def hdfcOnly : Account :=
  { id := "1", userId := "u1", name := "HDFC Savings", type := "SAVINGS", balance := 50000 }

/-- A staged candidate whose account hint names the deleted account. -/
def orphanCand : ParsedTransactionData :=
  { date := "2024-02-02", description := "Chai", amount := 100, type := "EXPENSE",
    category := "Food", subCategory := "Misc", accountNameMatch := "Cash Wallet" }

/-- A staged candidate with amount zero. -/
def zeroCand : ParsedTransactionData :=
  { date := "2024-02-02", description := "Freebie", amount := 0, type := "EXPENSE",
    category := "Misc", subCategory := "Misc", accountNameMatch := "HDFC Savings" }

/-- A directory whose second account's name is contained in the hint
`"Cash Wallet"` without containing it. -/
def shortNamed : Account :=
  { id := "9", userId := "u1", name := "Cash", type := "WALLET", balance := 300 }

/-- The expected candidate for the 6-field CSV template row. -/
def coffeeCand : ParsedTransactionData :=
  { date := "2023-10-25", description := "Coffee", amount := 250, type := "EXPENSE",
    category := "Beverages", subCategory := "Imported", accountNameMatch := "Cash Wallet" }

/-- A lone account used for the self-transfer counterexample. -/
def selfAcc : Account :=
  { id := "1", userId := "u1", name := "Solo", type := "WALLET", balance := 50 }

/-- The account of `invState`. -/
def invAcct : Account :=
  { id := "1", userId := "u1", name := "HDFC Savings", type := "SAVINGS", balance := 100 }

/-- The single committed INCOME entry of `invState`. -/
def invTx : Transaction :=
  { id := 7, date := "2024-01-01", description := "Salary", amount := 100,
    type := "INCOME", category := "Income", subCategory := "Primary", accountId := "1" }

/-- A one-account, one-transaction state whose balance is exactly its opening
balance plus the delta of its single INCOME entry. -/
def invState : AppState :=
  { accounts := [invAcct], transactions := [invTx] }

/-- Opening balances for `invState`. -/
def invOpenings : List (String × ℚ) := [("1", 0)]

/-- The existing ledger entry of the spec's §8 duplicate-detection example,
resolved against `INITIAL_ACCOUNTS` (so "HDFC Savings" is account id "1"). -/
def groceryTx : Transaction :=
  { id := 41, date := "2024-01-05", description := "Grocery Shopping",
    amount := 1200, type := "EXPENSE", category := "Produce",
    subCategory := "Veg", accountId := "1" }

/-- The §8 candidate that must be flagged: same date, same account, equal
amount, description containing the existing one. -/
def groceryCand : ParsedTransactionData :=
  { date := "2024-01-05", description := "Grocery Shopping at Store",
    amount := 1200, type := "EXPENSE", category := "Produce",
    subCategory := "Veg", accountNameMatch := "HDFC Savings" }

/-- The §8 candidate that must not be flagged: amount 5000 against the 1200
entry. -/
def groceryCand5000 : ParsedTransactionData :=
  { groceryCand with amount := 5000 }

/-! ## Helper lemmas -/

theorem findIdxO_eq_none {α : Type} {p : α → Bool} {l : List α} :
    findIdxO p l = none ↔ ∀ a ∈ l, p a = false := by
  induction l with
  | nil => simp [findIdxO]
  | cons a l ih =>
    rcases hpa : p a with _ | _
    · simp [findIdxO, hpa, Option.map_eq_none', ih]
    · simp [findIdxO, hpa]

theorem findIdxO_eq_some {α : Type} {p : α → Bool} {l : List α} {i : ℕ}
    (h : findIdxO p l = some i) :
    i < l.length ∧ (∃ a, l.get? i = some a ∧ p a = true) ∧
      ∀ j b, j < i → l.get? j = some b → p b = false := by
  induction l generalizing i with
  | nil => simp [findIdxO] at h
  | cons a l ih =>
    rcases hpa : p a with _ | _
    · rw [findIdxO, hpa, if_neg (by simp), Option.map_eq_some'] at h
      obtain ⟨k, hk, rfl⟩ := h
      obtain ⟨hlen, ⟨b, hb, hpb⟩, hmin⟩ := ih hk
      refine ⟨Nat.succ_lt_succ hlen, ⟨b, by simpa using hb, hpb⟩, ?_⟩
      intro j c hj hc
      cases j with
      | zero =>
        simp only [List.get?_cons_zero, Option.some.injEq] at hc
        subst hc
        exact hpa
      | succ j =>
        exact hmin j c (Nat.lt_of_succ_lt_succ hj) (by simpa using hc)
    · rw [findIdxO, hpa, if_pos rfl] at h
      obtain rfl : (0 : ℕ) = i := Option.some.inj h
      refine ⟨Nat.succ_pos _, ⟨a, rfl, hpa⟩, ?_⟩
      intro j b hj
      exact absurd hj (Nat.not_lt_zero j)

theorem balanceSum_cons (a : Account) (l : List Account) :
    balanceSum (a :: l) = a.balance + balanceSum l := by
  simp [balanceSum]

theorem balanceSum_set {l : List Account} {i : ℕ} {acc : Account}
    (h : l.get? i = some acc) (a : Account) :
    balanceSum (l.set i a) = balanceSum l - acc.balance + a.balance := by
  induction l generalizing i with
  | nil => simp at h
  | cons b l ih =>
    cases i with
    | zero =>
      simp only [List.get?_cons_zero, Option.some.injEq] at h
      subst h
      simp only [List.set_cons_zero, balanceSum_cons]
      ring
    | succ i =>
      simp only [List.get?_cons_succ] at h
      simp only [List.set_cons_succ, balanceSum_cons, ih h]
      ring

theorem applyDelta_id (acc : Account) (p : ParsedTransactionData) :
    (applyDelta acc p).id = acc.id := by
  unfold applyDelta
  split <;> rfl

theorem applyDelta_balance (acc : Account) (p : ParsedTransactionData) :
    (applyDelta acc p).balance = acc.balance + candDelta p := by
  unfold applyDelta candDelta
  split <;> ring_nf

theorem confirmGo_spec (nowISO : String) (now : ℕ) :
    ∀ (ps : List ParsedTransactionData) (i : ℕ) (accs : List Account)
      (txs : List Transaction) (accs' : List Account) (txs' : List Transaction),
      confirmGo nowISO now i accs txs ps = some (accs', txs') →
      accs'.length = accs.length ∧
      txs'.length = txs.length + ps.length ∧
      balanceSum accs' = balanceSum accs + (ps.map candDelta).sum ∧
      ∃ rest, txs' = txs ++ rest := by
  intro ps
  induction ps with
  | nil =>
    intro i accs txs accs' txs' h
    simp only [confirmGo, Option.some.injEq, Prod.mk.injEq] at h
    obtain ⟨h1, h2⟩ := h
    subst h1; subst h2
    exact ⟨rfl, by simp, by simp, [], by simp⟩
  | cons p ps ih =>
    intro i accs txs accs' txs' h
    simp only [confirmGo] at h
    cases hacc : accs.get? ((resolveIdx accs p.accountNameMatch).getD 0) with
    | none => rw [hacc] at h; exact absurd h (by simp)
    | some acc =>
      rw [hacc] at h
      obtain ⟨hlen, htlen, hsum, rest, hrest⟩ := ih (i + 1) _ _ _ _ h
      refine ⟨by rw [hlen, List.length_set], ?_, ?_, ?_⟩
      · rw [htlen]
        simp only [List.length_append, List.length_cons, List.length_nil, List.length]
        omega
      · rw [hsum, balanceSum_set hacc, applyDelta_balance]
        simp only [List.map_cons, List.sum_cons]
        ring
      · exact ⟨mkLedgerTx nowISO now i p acc.id :: rest, by
          rw [hrest]; simp⟩

theorem confirmGo_total (nowISO : String) (now : ℕ) :
    ∀ (ps : List ParsedTransactionData) (i : ℕ) (accs : List Account)
      (txs : List Transaction), accs ≠ [] →
      ∃ out, confirmGo nowISO now i accs txs ps = some out := by
  intro ps
  induction ps with
  | nil => exact fun i accs txs _ => ⟨_, rfl⟩
  | cons p ps ih =>
    intro i accs txs hne
    have hidx : ((resolveIdx accs p.accountNameMatch).getD 0) < accs.length := by
      cases hr : resolveIdx accs p.accountNameMatch with
      | none => simpa using List.length_pos.mpr hne
      | some k => simpa using (findIdxO_eq_some hr).1
    have hacc : accs.get? ((resolveIdx accs p.accountNameMatch).getD 0) =
        some (accs.get ⟨_, hidx⟩) := List.get?_eq_get hidx
    obtain ⟨out, hout⟩ := ih (i + 1)
      (accs.set ((resolveIdx accs p.accountNameMatch).getD 0)
        (applyDelta (accs.get ⟨_, hidx⟩) p))
      (txs ++ [mkLedgerTx nowISO now i p (accs.get ⟨_, hidx⟩).id])
      (by
        intro hnil
        apply hne
        have := congrArg List.length hnil
        rw [List.length_set] at this
        exact List.length_eq_zero.mp this)
    refine ⟨out, ?_⟩
    simp only [confirmGo]
    rw [hacc]
    exact hout

theorem transferAdjust_id (fromId toId : String) (A : ℚ) (a : Account) :
    (transferAdjust fromId toId A a).id = a.id := by
  unfold transferAdjust
  split
  · rfl
  · split <;> rfl

theorem countP_id_eq_zero {l : List Account} {s : String}
    (h : ∀ b ∈ l, b.id ≠ s) : l.countP (fun a => a.id == s) = 0 :=
  List.countP_eq_zero.mpr fun a ha => by simpa using h a ha

theorem countP_id_eq_one {l : List Account} {X : Account} {s : String}
    (hnodup : (l.map Account.id).Nodup) (hX : X ∈ l) (hid : X.id = s) :
    l.countP (fun a => a.id == s) = 1 := by
  induction l with
  | nil => simp at hX
  | cons a l ih =>
    rw [List.map_cons, List.nodup_cons] at hnodup
    obtain ⟨hnotin, hnd⟩ := hnodup
    rcases List.mem_cons.mp hX with rfl | hXl
    · have h0 : l.countP (fun b => b.id == s) = 0 := by
        apply countP_id_eq_zero
        intro b hb hbs
        apply hnotin
        have hmem : b.id ∈ l.map Account.id := List.mem_map_of_mem Account.id hb
        rwa [hbs, ← hid] at hmem
      rw [List.countP_cons, h0, if_pos (by simpa using hid)]
    · have ha : (a.id == s) = false := by
        simp only [beq_eq_false_iff_ne, ne_eq]
        intro h
        apply hnotin
        have hmem : X.id ∈ l.map Account.id := List.mem_map_of_mem Account.id hXl
        rwa [hid, ← h] at hmem
      rw [List.countP_cons, ha, ih hnd hXl]
      simp

theorem balanceSum_transferAdjust (fromId toId : String) (A : ℚ)
    (hne : fromId ≠ toId) (l : List Account) :
    balanceSum (l.map (transferAdjust fromId toId A)) =
      balanceSum l - A * (l.countP (fun a => a.id == fromId) : ℚ)
        + A * (l.countP (fun a => a.id == toId) : ℚ) := by
  induction l with
  | nil => simp [balanceSum]
  | cons a l ih =>
    rw [List.map_cons, balanceSum_cons, balanceSum_cons, ih,
      List.countP_cons, List.countP_cons]
    by_cases hf : a.id = fromId
    · have h1 : (a.id == fromId) = true := by simpa using hf
      have h2 : (a.id == toId) = false := by
        simp only [beq_eq_false_iff_ne, ne_eq]
        rw [hf]
        exact hne
      have hb : (transferAdjust fromId toId A a).balance = a.balance - A := by
        simp [transferAdjust, h1]
      rw [hb, h1, h2]
      norm_num
      ring
    · have h1 : (a.id == fromId) = false := by simpa using hf
      by_cases ht : a.id = toId
      · have h2 : (a.id == toId) = true := by simpa using ht
        have hb : (transferAdjust fromId toId A a).balance = a.balance + A := by
          simp [transferAdjust, h1, h2]
        rw [hb, h1, h2]
        norm_num
        ring
      · have h2 : (a.id == toId) = false := by simpa using ht
        have hb : (transferAdjust fromId toId A a).balance = a.balance := by
          simp [transferAdjust, h1, h2]
        rw [hb, h1, h2]
        norm_num
        ring

theorem perAccountDeltaSum_cons (x : Transaction) (xs : List Transaction) (aid : String) :
    perAccountDeltaSum (x :: xs) aid =
      (if x.accountId == aid then signedDelta x else 0) + perAccountDeltaSum xs aid := by
  unfold perAccountDeltaSum
  rw [List.filter_cons]
  by_cases h : (x.accountId == aid) = true
  · rw [if_pos h, if_pos h]
    simp
  · rw [if_neg h, if_neg h]
    simp

theorem perAccountDeltaSum_delete {txs : List Transaction} {t : Transaction}
    (hnodup : (txs.map Transaction.id).Nodup) (ht : t ∈ txs) (aid : String)
    (haid : t.accountId = aid) :
    perAccountDeltaSum (txs.filter fun x => !(x.id == t.id)) aid =
      perAccountDeltaSum txs aid - signedDelta t := by
  induction txs with
  | nil => simp at ht
  | cons x xs ih =>
    rw [List.map_cons, List.nodup_cons] at hnodup
    obtain ⟨hnotin, hnd⟩ := hnodup
    rcases List.mem_cons.mp ht with rfl | htl
    · rw [List.filter_cons, if_neg (by simp)]
      have hkeep : (xs.filter fun y => !(y.id == t.id)) = xs := by
        apply List.filter_eq_self.mpr
        intro y hy
        simp only [Bool.not_eq_eq_eq_not, Bool.not_true, beq_eq_false_iff_ne, ne_eq]
        intro he
        exact hnotin (he ▸ List.mem_map_of_mem Transaction.id hy)
      rw [hkeep, perAccountDeltaSum_cons, if_pos (by simpa using haid)]
      ring
    · have hxid : (!(x.id == t.id)) = true := by
        simp only [Bool.not_eq_eq_eq_not, Bool.not_true, beq_eq_false_iff_ne, ne_eq]
        intro he
        exact hnotin (he ▸ List.mem_map_of_mem Transaction.id htl)
      rw [List.filter_cons, if_pos hxid, perAccountDeltaSum_cons,
        perAccountDeltaSum_cons, ih hnd htl]
      ring

theorem find?_map_transferAdjust (fromId toId : String) (A : ℚ) (s : String)
    (l : List Account) :
    (l.map (transferAdjust fromId toId A)).find? (fun a => a.id == s) =
      (l.find? (fun a => a.id == s)).map (transferAdjust fromId toId A) := by
  have hp : ((fun a => a.id == s) ∘ transferAdjust fromId toId A) =
      fun a : Account => a.id == s := by
    funext a
    simp [Function.comp, transferAdjust_id]
  rw [List.find?_map, hp]

/-! ## Claim theorems -/

/-- C10: commit has an unstated non-empty-directory precondition — for every
non-empty staging batch, committing against an empty account directory
dereferences an undefined default account (`updatedAccounts[0]` on an empty
array) and the operation fails with a runtime error (modelled `none`) instead
of returning a result. -/
theorem claim_C10_empty_directory_commit_crashes
    (nowISO : String) (now : ℕ) (ps : List ParsedTransactionData)
    (st : AppState) (hacc : st.accounts = []) (hps : ps ≠ []) :
    confirmTransactions nowISO now ps st = none := by
  obtain ⟨p, ps', rfl⟩ := List.exists_cons_of_ne_nil hps
  unfold confirmTransactions
  rw [hacc]
  simp [confirmGo, resolveIdx, findIdxO]

/-- Witness for C10: one orphan candidate against the empty directory. -/
theorem claim_C10_witness :
    confirmTransactions "2024-02-02" 5 [orphanCand]
      { accounts := [], transactions := [] } = none :=
  claim_C10_empty_directory_commit_crashes "2024-02-02" 5 [orphanCand] _ rfl (by simp)

/-- C9: on any failure of the primary strict-schema attempt the adapter
issues exactly one fallback attempt (and none otherwise); the fallback wraps
a single returned object into a one-element array; when both attempts fail
the adapter returns `null` (no uncaught throw), and the caller
`processSmartEntry` treats that result as zero candidates, leaving the staged
preview untouched. -/
theorem claim_C9_fallback_policy (primary fallback : GenResponse) :
    (primaryFailed primary = true → (parseNaturalLanguageInput primary fallback).2 = 1) ∧
    (primaryFailed primary = false → (parseNaturalLanguageInput primary fallback).2 = 0) ∧
    (∀ x, primaryFailed primary = true →
      fallback = GenResponse.text (JsonOutcome.isObj x) →
      (parseNaturalLanguageInput primary fallback).1 = some [x]) ∧
    (primaryFailed primary = true → primaryFailed fallback = true →
      (parseNaturalLanguageInput primary fallback).1 = none) ∧
    (∀ prev, (parseNaturalLanguageInput primary fallback).1 = none →
      processSmartEntry prev (parseNaturalLanguageInput primary fallback).1 = prev ∧
      processSmartEntry none (parseNaturalLanguageInput primary fallback).1 = none) := by
  rcases primary with _ | _ | (_ | xs | x) <;>
    rcases fallback with _ | _ | (_ | ys | y) <;>
      simp [parseNaturalLanguageInput, primaryFailed, processSmartEntry]

/-- Witness for C9: transport error on the primary attempt, unparsable text
on the fallback. -/
theorem claim_C9_witness :
    (parseNaturalLanguageInput GenResponse.transportErr
      (GenResponse.text JsonOutcome.throwsErr)).1 = none ∧
    (parseNaturalLanguageInput GenResponse.transportErr
      (GenResponse.text JsonOutcome.throwsErr)).2 = 1 :=
  ⟨(claim_C9_fallback_policy GenResponse.transportErr
      (GenResponse.text JsonOutcome.throwsErr)).2.2.2.1 rfl rfl,
   (claim_C9_fallback_policy GenResponse.transportErr
      (GenResponse.text JsonOutcome.throwsErr)).1 rfl⟩

/-- C8: committing an empty batch is a no-op on the whole state, and
committing a batch of N candidates against a non-empty directory succeeds,
grows the ledger by exactly N, and moves the total of all account balances by
the sum of the candidates' signed deltas. -/
theorem claim_C8_commit_size_and_delta_sum :
    (∀ (nowISO : String) (now : ℕ) (st : AppState),
      confirmTransactions nowISO now [] st = some st) ∧
    (∀ (nowISO : String) (now : ℕ) (ps : List ParsedTransactionData) (st : AppState),
      st.accounts ≠ [] →
      ∃ st', confirmTransactions nowISO now ps st = some st' ∧
        st'.transactions.length = ps.length + st.transactions.length ∧
        balanceSum st'.accounts = balanceSum st.accounts + (ps.map candDelta).sum) := by
  constructor
  · intro nowISO now st
    simp [confirmTransactions, confirmGo]
  · intro nowISO now ps st hne
    obtain ⟨⟨accs', txs'⟩, hout⟩ := confirmGo_total nowISO now ps 0 st.accounts [] hne
    obtain ⟨hlen, htlen, hsum, rest, hrest⟩ := confirmGo_spec nowISO now ps 0 _ _ _ _ hout
    refine ⟨{ accounts := accs', transactions := txs' ++ st.transactions }, ?_, ?_, ?_⟩
    · simp only [confirmTransactions, hout, Option.map_some']
    · simp only [List.length_append]
      simp only [List.length_nil, Nat.zero_add] at htlen
      omega
    · simpa using hsum

/-- Witness for C8: the empty batch and a singleton batch against
`INITIAL_ACCOUNTS`. -/
theorem claim_C8_witness :
    confirmTransactions "D" 9 [] { accounts := INITIAL_ACCOUNTS, transactions := [] } =
      some { accounts := INITIAL_ACCOUNTS, transactions := [] } ∧
    ∃ st', confirmTransactions "D" 9 [coffeeCand]
        { accounts := INITIAL_ACCOUNTS, transactions := [] } = some st' ∧
      st'.transactions.length = 1 ∧
      balanceSum st'.accounts = balanceSum INITIAL_ACCOUNTS + candDelta coffeeCand := by
  constructor
  · exact claim_C8_commit_size_and_delta_sum.1 "D" 9 _
  · obtain ⟨st', h1, h2, h3⟩ := claim_C8_commit_size_and_delta_sum.2 "D" 9 [coffeeCand]
      { accounts := INITIAL_ACCOUNTS, transactions := [] } (by simp [INITIAL_ACCOUNTS])
    exact ⟨st', h1, by simpa using h2, by simpa using h3⟩

/-- C1 is false of the code: a candidate whose resolved account no longer
exists (its hint matches nothing in the directory) does not make commit
reject the batch — here the batch commits in full, one LedgerTransaction is
inserted against the fallback account "1", and that account's balance moves
from 50000 to 49900. -/
theorem claim_C1_counterexample :
    resolveIdx [hdfcOnly] orphanCand.accountNameMatch = none ∧
    confirmTransactions "2024-02-02" 5 [orphanCand]
        { accounts := [hdfcOnly], transactions := [] } =
      some { accounts := [{ hdfcOnly with balance := 49900 }],
             transactions := [mkLedgerTx "2024-02-02" 5 0 orphanCand "1"] } ∧
    (49900 : ℚ) ≠ 50000 := by
  refine ⟨by decide, ?_, by norm_num⟩
  simp +decide [confirmTransactions, confirmGo, resolveIdx, findIdxO, applyDelta,
    hdfcOnly, orphanCand]
  norm_num

/-- C1 amended: commit performs no commit-time validation.  For any batch
headed by a candidate whose hint matches no account in a non-empty directory,
the whole batch still commits: the orphan candidate is recorded against the
first account of the directory and the ledger grows by the full batch size. -/
theorem claim_C1_amended_no_commit_validation
    (nowISO : String) (now : ℕ) (p : ParsedTransactionData)
    (ps : List ParsedTransactionData) (st : AppState)
    (hne : st.accounts ≠ [])
    (horphan : resolveIdx st.accounts p.accountNameMatch = none) :
    ∃ acc0 st', st.accounts.get? 0 = some acc0 ∧
      confirmTransactions nowISO now (p :: ps) st = some st' ∧
      st'.transactions.length = ps.length + 1 + st.transactions.length ∧
      ∃ rest, st'.transactions = mkLedgerTx nowISO now 0 p acc0.id :: rest := by
  obtain ⟨accs, txs⟩ := st
  cases accs with
  | nil => exact absurd rfl hne
  | cons a l =>
    obtain ⟨⟨accs', txs'⟩, hout⟩ := confirmGo_total nowISO now ps 1
      ((a :: l).set 0 (applyDelta a p))
      [mkLedgerTx nowISO now 0 p a.id]
      (by simp)
    obtain ⟨hlen, htlen, hsum, rest, hrest⟩ := confirmGo_spec nowISO now ps 1 _ _ _ _ hout
    have hgo : confirmGo nowISO now 0 (a :: l) [] (p :: ps) = some (accs', txs') := by
      simp only [confirmGo]
      rw [horphan]
      exact hout
    refine ⟨a, { accounts := accs', transactions := txs' ++ txs }, rfl, ?_, ?_, ?_⟩
    · simp only [confirmTransactions, hgo, Option.map_some']
    · simp only [List.length_append]
      simp only [List.length_cons, List.length_nil] at htlen
      omega
    · refine ⟨rest ++ txs, ?_⟩
      simp only [hrest]
      simp

/-- Witness for C1: the orphan candidate against the directory from which
its account was deleted. -/
theorem claim_C1_witness :
    ∃ acc0 st', [hdfcOnly].get? 0 = some acc0 ∧
      confirmTransactions "2024-02-02" 5 [orphanCand]
        { accounts := [hdfcOnly], transactions := [] } = some st' ∧
      st'.transactions.length = 0 + 1 + 0 ∧
      ∃ rest, st'.transactions = mkLedgerTx "2024-02-02" 5 0 orphanCand acc0.id :: rest :=
  claim_C1_amended_no_commit_validation "2024-02-02" 5 orphanCand []
    { accounts := [hdfcOnly], transactions := [] } (by simp) (by decide)

/-- C2 is false of the code: a candidate with amount 0 is not rejected before
commit — it is committed, the stored ledger amount is 0, and 0 is not
strictly positive.  (The balance-delta half of C2 holds and is proved in the
amended theorem.) -/
theorem claim_C2_counterexample :
    confirmTransactions "2024-02-02" 5 [zeroCand]
        { accounts := [hdfcOnly], transactions := [] } =
      some { accounts := [hdfcOnly],
             transactions := [mkLedgerTx "2024-02-02" 5 0 zeroCand "1"] } ∧
    (mkLedgerTx "2024-02-02" 5 0 zeroCand "1").amount = 0 ∧
    ¬ (0 : ℚ) < 0 := by
  refine ⟨?_, rfl, by norm_num⟩
  simp +decide [confirmTransactions, confirmGo, resolveIdx, findIdxO, applyDelta,
    hdfcOnly, zeroCand]

/-- C2 amended: commit performs no positivity check — the amount stored in
the resulting LedgerTransaction is exactly the candidate's staged amount,
whatever its sign — and the owning account's balance changes by exactly
`+amount` when the type is INCOME and by exactly `-amount` otherwise
(EXPENSE, INVESTMENT, or anything else); all other accounts are unchanged. -/
theorem claim_C2_amended_amount_passthrough
    (nowISO : String) (now : ℕ) (p : ParsedTransactionData) (st : AppState)
    (hne : st.accounts ≠ []) :
    ∃ j acc, (resolveIdx st.accounts p.accountNameMatch).getD 0 = j ∧
      st.accounts.get? j = some acc ∧
      confirmTransactions nowISO now [p] st =
        some { accounts := st.accounts.set j (applyDelta acc p),
               transactions := mkLedgerTx nowISO now 0 p acc.id :: st.transactions } ∧
      (mkLedgerTx nowISO now 0 p acc.id).amount = p.amount ∧
      (applyDelta acc p).balance =
        acc.balance + (if p.type = "INCOME" then p.amount else -p.amount) ∧
      ∀ k, k ≠ j → (st.accounts.set j (applyDelta acc p)).get? k = st.accounts.get? k := by
  have hidx : ((resolveIdx st.accounts p.accountNameMatch).getD 0) < st.accounts.length := by
    cases hr : resolveIdx st.accounts p.accountNameMatch with
    | none => simpa using List.length_pos.mpr hne
    | some k => simpa using (findIdxO_eq_some hr).1
  have hacc : st.accounts.get? ((resolveIdx st.accounts p.accountNameMatch).getD 0) =
      some (st.accounts.get ⟨_, hidx⟩) := List.get?_eq_get hidx
  refine ⟨_, _, rfl, hacc, ?_, rfl, ?_, ?_⟩
  · simp only [confirmTransactions, confirmGo]
    rw [hacc]
    rfl
  · rw [applyDelta_balance]
    unfold candDelta
    rfl
  · intro k hk
    exact List.get?_set_ne _ _ fun h => hk h.symm

/-- Witness for C2: committing the CSV template candidate against
`INITIAL_ACCOUNTS`. -/
theorem claim_C2_witness :
    ∃ j acc, (resolveIdx INITIAL_ACCOUNTS coffeeCand.accountNameMatch).getD 0 = j ∧
      INITIAL_ACCOUNTS.get? j = some acc ∧
      confirmTransactions "D" 9 [coffeeCand]
          { accounts := INITIAL_ACCOUNTS, transactions := [] } =
        some { accounts := INITIAL_ACCOUNTS.set j (applyDelta acc coffeeCand),
               transactions := mkLedgerTx "D" 9 0 coffeeCand acc.id :: [] } ∧
      (mkLedgerTx "D" 9 0 coffeeCand acc.id).amount = coffeeCand.amount ∧
      (applyDelta acc coffeeCand).balance =
        acc.balance +
          (if coffeeCand.type = "INCOME" then coffeeCand.amount else -coffeeCand.amount) ∧
      ∀ k, k ≠ j →
        (INITIAL_ACCOUNTS.set j (applyDelta acc coffeeCand)).get? k =
          INITIAL_ACCOUNTS.get? k :=
  claim_C2_amended_amount_passthrough "D" 9 coffeeCand
    { accounts := INITIAL_ACCOUNTS, transactions := [] } (by simp [INITIAL_ACCOUNTS])

/-- C3 is false as stated for two of its quantified instances: a transfer
from an account to itself (a pair with X = Y) only debits, so the total
directory balance changes from 50 to -50 instead of staying unchanged; and a
transfer of amount 0 is swallowed by the falsy-amount guard and creates no
LedgerTransaction instead of exactly one. -/
theorem claim_C3_counterexample :
    balanceSum (handleTransfer { accounts := [selfAcc], transactions := [] }
        "1" "1" 100 "D" 0).accounts = -50 ∧
    balanceSum [selfAcc] = 50 ∧
    (handleTransfer { accounts := INITIAL_ACCOUNTS, transactions := [] }
        "1" "2" 0 "D" 0).transactions.length = 0 := by
  refine ⟨?_, by norm_num [balanceSum, selfAcc], ?_⟩
  · have hguard : ¬ (("1" : String) = "" ∨ ("1" : String) = "" ∨ (100 : ℚ) = 0) := by
      push_neg
      exact ⟨by decide, by decide, by norm_num⟩
    unfold handleTransfer
    rw [if_neg hguard]
    have hfind : ([selfAcc].find? fun a => a.id == "1") = some selfAcc := rfl
    rw [hfind]
    simp [transferAdjust, balanceSum, selfAcc]
    norm_num
  · unfold handleTransfer
    rw [if_pos (Or.inr (Or.inr rfl))]
    rfl

/-- C3 amended: for every pair of **distinct** accounts X and Y (in a
directory with unique ids) and every **non-zero** amount A, a transfer of A
from X to Y decreases X's balance by A, increases Y's balance by A, leaves the
total directory balance unchanged, and prepends exactly one LedgerTransaction,
recorded against the source account and categorised Transfer/Internal. -/
theorem claim_C3_amended_distinct_transfer
    (st : AppState) (fromS toS : String) (A : ℚ) (nowISO : String) (now : ℕ)
    (hnodup : (st.accounts.map Account.id).Nodup)
    (hdist : fromS ≠ toS) (hF : fromS ≠ "") (hT : toS ≠ "") (hA : A ≠ 0)
    (X Y : Account)
    (hX : st.accounts.find? (fun a => a.id == fromS) = some X)
    (hY : st.accounts.find? (fun a => a.id == toS) = some Y) :
    (handleTransfer st fromS toS A nowISO now).accounts.find? (fun a => a.id == fromS) =
      some { X with balance := X.balance - A } ∧
    (handleTransfer st fromS toS A nowISO now).accounts.find? (fun a => a.id == toS) =
      some { Y with balance := Y.balance + A } ∧
    balanceSum (handleTransfer st fromS toS A nowISO now).accounts =
      balanceSum st.accounts ∧
    (handleTransfer st fromS toS A nowISO now).transactions.length =
      st.transactions.length + 1 ∧
    ∃ t, (handleTransfer st fromS toS A nowISO now).transactions = t :: st.transactions ∧
      t.accountId = X.id ∧ t.amount = A ∧ t.type = "EXPENSE" ∧
      t.category = "Transfer" ∧ t.subCategory = "Internal" := by
  have hXid : X.id = fromS := by simpa using List.find?_some hX
  have hYid : Y.id = toS := by simpa using List.find?_some hY
  have hXmem : X ∈ st.accounts := List.mem_of_find?_eq_some hX
  have hYmem : Y ∈ st.accounts := List.mem_of_find?_eq_some hY
  have hguard : ¬ (fromS = "" ∨ toS = "" ∨ A = 0) := by
    push_neg
    exact ⟨hF, hT, hA⟩
  have hidne : X.id ≠ Y.id := by
    rw [hXid, hYid]
    exact hdist
  have hopen : handleTransfer st fromS toS A nowISO now =
      { accounts := st.accounts.map (transferAdjust X.id Y.id A),
        transactions :=
          { id := now, date := nowISO
            description := "Transfer: " ++ X.name ++ " → " ++ Y.name
            amount := A, type := "EXPENSE", category := "Transfer"
            subCategory := "Internal", accountId := X.id } :: st.transactions } := by
    unfold handleTransfer
    rw [if_neg hguard, hX, hY]
  rw [hopen]
  refine ⟨?_, ?_, ?_, by simp, ?_⟩
  · rw [find?_map_transferAdjust, hX]
    have : transferAdjust X.id Y.id A X = { X with balance := X.balance - A } := by
      simp [transferAdjust]
    simp [this]
  · rw [find?_map_transferAdjust, hY]
    have : transferAdjust X.id Y.id A Y = { Y with balance := Y.balance + A } := by
      have h1 : (Y.id == X.id) = false := by
        simp only [beq_eq_false_iff_ne, ne_eq]
        exact fun h => hidne h.symm
      simp [transferAdjust, h1]
    simp [this]
  · rw [balanceSum_transferAdjust X.id Y.id A hidne,
      countP_id_eq_one hnodup hXmem rfl, countP_id_eq_one hnodup hYmem rfl]
    push_cast
    ring
  · exact ⟨_, rfl, rfl, rfl, rfl, rfl, rfl⟩

/-- Witness for C3: 500 from "HDFC Savings" to "Cash Wallet" in
`INITIAL_ACCOUNTS`. -/
theorem claim_C3_witness :
    (handleTransfer { accounts := INITIAL_ACCOUNTS, transactions := [] }
        "1" "2" 500 "D" 4).accounts.find? (fun a => a.id == "1") =
      some { hdfcInit with balance := hdfcInit.balance - 500 } ∧
    (handleTransfer { accounts := INITIAL_ACCOUNTS, transactions := [] }
        "1" "2" 500 "D" 4).accounts.find? (fun a => a.id == "2") =
      some { cashInit with balance := cashInit.balance + 500 } ∧
    balanceSum (handleTransfer { accounts := INITIAL_ACCOUNTS, transactions := [] }
        "1" "2" 500 "D" 4).accounts = balanceSum INITIAL_ACCOUNTS ∧
    (handleTransfer { accounts := INITIAL_ACCOUNTS, transactions := [] }
        "1" "2" 500 "D" 4).transactions.length = 0 + 1 ∧
    ∃ t, (handleTransfer { accounts := INITIAL_ACCOUNTS, transactions := [] }
        "1" "2" 500 "D" 4).transactions = t :: [] ∧
      t.accountId = hdfcInit.id ∧ t.amount = 500 ∧ t.type = "EXPENSE" ∧
      t.category = "Transfer" ∧ t.subCategory = "Internal" :=
  claim_C3_amended_distinct_transfer
    { accounts := INITIAL_ACCOUNTS, transactions := [] } "1" "2" 500 "D" 4
    (by decide) (by decide) (by decide) (by decide) (by norm_num)
    hdfcInit cashInit rfl rfl

/-- C4 is false of the code: for the directory `[HDFC Savings, Cash]` and
hint `"Cash Wallet"`, the account "Cash" matches under the claim's
either-direction containment (the hint contains the account name), yet the
code's one-direction lookup finds nothing and the commit index falls back to
0, the non-matching "HDFC Savings". -/
theorem claim_C4_counterexample :
    eitherDirMatch shortNamed "Cash Wallet" = true ∧
    shortNamed ∈ [hdfcInit, shortNamed] ∧
    resolveIdx [hdfcInit, shortNamed] "Cash Wallet" = none ∧
    (resolveIdx [hdfcInit, shortNamed] "Cash Wallet").getD 0 = 0 ∧
    [hdfcInit, shortNamed].get? 0 = some hdfcInit ∧
    eitherDirMatch hdfcInit "Cash Wallet" = false := by
  refine ⟨by decide, by simp, by decide, ?_, rfl, by decide⟩
  rw [show resolveIdx [hdfcInit, shortNamed] "Cash Wallet" = none by decide]
  rfl

/-- C4 amended: account resolution matches by case-insensitive substring
containment in **one** direction only — the account name must contain the
hint; the first such account in directory order wins, and when none matches
the lookup yields `none`, which the commit path defaults to index 0, the
first account of the directory. -/
theorem claim_C4_amended_one_direction_resolution
    (accounts : List Account) (hint : String) :
    (resolveIdx accounts hint = none ↔
      ∀ a ∈ accounts, lowerIncludes a.name hint = false) ∧
    (∀ i, resolveIdx accounts hint = some i →
      i < accounts.length ∧
      (∃ acc, accounts.get? i = some acc ∧ lowerIncludes acc.name hint = true) ∧
      ∀ j b, j < i → accounts.get? j = some b → lowerIncludes b.name hint = false) ∧
    (resolveIdx accounts hint = none → (resolveIdx accounts hint).getD 0 = 0) := by
  refine ⟨findIdxO_eq_none, ?_, ?_⟩
  · intro i h
    exact findIdxO_eq_some h
  · intro h
    rw [h]
    rfl

/-- Witness for C4: no account of `INITIAL_ACCOUNTS` has a name containing
"Petty", so resolution yields `none` and the commit index defaults to 0. -/
theorem claim_C4_witness :
    resolveIdx INITIAL_ACCOUNTS "Petty" = none ∧
    (resolveIdx INITIAL_ACCOUNTS "Petty").getD 0 = 0 := by
  have h := (claim_C4_amended_one_direction_resolution INITIAL_ACCOUNTS "Petty").1.mpr
    (by decide)
  exact ⟨h, (claim_C4_amended_one_direction_resolution INITIAL_ACCOUNTS "Petty").2.2 h⟩

/-- C5 is false of the code: the claimed 5-field row
`2023-10-25,Coffee,250,EXPENSE,Cash Wallet` is skipped, not accepted — the
parser demands at least 6 comma-separated fields — so an import containing
only that row produces no candidate at all. -/
theorem claim_C5_counterexample :
    parseCsvRow "2023-10-25,Coffee,250,EXPENSE,Cash Wallet" = none ∧
    handleBulkImport
      "Date,Description,Amount,Type,AccountName\n2023-10-25,Coffee,250,EXPENSE,Cash Wallet"
      = [] := by
  exact ⟨by decide, by decide⟩

/-- C5 amended: CSV import ignores the header row; a data row needs at least
6 comma-separated fields `date,description,amount,type,category,accountName`
(rows with fewer are skipped); the 6-field template row
`2023-10-25,Coffee,250,EXPENSE,Beverages,Cash Wallet` yields a candidate with
amount 250, type EXPENSE and hint "Cash Wallet", which commit resolves to the
"Cash Wallet" account, recording the new ledger entry against its id "2". -/
theorem claim_C5_amended_csv_needs_six_fields :
    (∀ line : String, (splitL ',' line.toList).length < 6 → parseCsvRow line = none) ∧
    parseCsvRow "2023-10-25,Coffee,250,EXPENSE,Beverages,Cash Wallet" = some coffeeCand ∧
    handleBulkImport
      "Date,Description,Amount,Type,Category,AccountName\n2023-10-25,Coffee,250,EXPENSE,Beverages,Cash Wallet"
      = [coffeeCand] ∧
    coffeeCand.amount = 250 ∧
    coffeeCand.type = "EXPENSE" ∧
    resolveIdx INITIAL_ACCOUNTS coffeeCand.accountNameMatch = some 1 ∧
    INITIAL_ACCOUNTS.get? 1 = some cashInit ∧
    cashInit.id = "2" ∧
    confirmTransactions "D" 9 [coffeeCand] { accounts := INITIAL_ACCOUNTS, transactions := [] } =
      some { accounts := [hdfcInit, { cashInit with balance := 1750 }],
             transactions := [mkLedgerTx "D" 9 0 coffeeCand "2"] } := by
  refine ⟨?_, ?_, ?_, rfl, rfl, by decide, rfl, rfl, ?_⟩
  · intro line h
    unfold parseCsvRow
    rw [if_neg]
    simp only [List.length_map]
    omega
  · have h : parseCsvRow "2023-10-25,Coffee,250,EXPENSE,Beverages,Cash Wallet" =
        some { date := "2023-10-25", description := "Coffee",
               amount := ((250 : ℕ) : ℚ) + ((0 : ℕ) : ℚ) / 10 ^ (0 : ℕ),
               type := "EXPENSE", category := "Beverages",
               subCategory := "Imported", accountNameMatch := "Cash Wallet" } := rfl
    rw [h]
    simp [coffeeCand]
  · have h : handleBulkImport
        "Date,Description,Amount,Type,Category,AccountName\n2023-10-25,Coffee,250,EXPENSE,Beverages,Cash Wallet" =
        [{ date := "2023-10-25", description := "Coffee",
           amount := ((250 : ℕ) : ℚ) + ((0 : ℕ) : ℚ) / 10 ^ (0 : ℕ),
           type := "EXPENSE", category := "Beverages",
           subCategory := "Imported", accountNameMatch := "Cash Wallet" }] := rfl
    rw [h]
    simp [coffeeCand]
  · simp +decide [confirmTransactions, confirmGo, resolveIdx, findIdxO,
      applyDelta, INITIAL_ACCOUNTS, hdfcInit, cashInit, coffeeCand]
    norm_num

/-- Witness for C5: a 2-field row is skipped. -/
theorem claim_C5_witness :
    parseCsvRow "too,few" = none :=
  claim_C5_amended_csv_needs_six_fields.1 "too,few" (by decide)

/-- C6 is false of the code: in a state where the §3 invariant holds (balance
100 = opening 0 + one INCOME delta of 100), deleting that transaction leaves
every account balance untouched — no delta is reversed — so the invariant no
longer holds afterwards. -/
theorem claim_C6_counterexample :
    ledgerInvariant invOpenings invState ∧
    (deleteTransactionClick invState 7).accounts = invState.accounts ∧
    ¬ ledgerInvariant invOpenings (deleteTransactionClick invState 7) := by
  refine ⟨?_, rfl, ?_⟩
  · intro a ha
    simp only [invState, List.mem_singleton] at ha
    subst ha
    show invAcct.balance =
      openingOf invOpenings invAcct.id + perAccountDeltaSum [invTx] invAcct.id
    simp +decide [invAcct, invTx, invOpenings, openingOf, perAccountDeltaSum,
      signedDelta, List.filter]
  · intro h
    have hmem : invAcct ∈ (deleteTransactionClick invState 7).accounts := by
      simp [deleteTransactionClick, invState]
    have h2 := h invAcct hmem
    have hdel : (deleteTransactionClick invState 7).transactions = [] := rfl
    rw [hdel] at h2
    simp +decide [invAcct, invOpenings, openingOf, perAccountDeltaSum] at h2

/-- C6 amended: editing a committed LedgerTransaction replaces it in the
ledger and deleting removes it, but neither operation touches any account
balance — no delta difference is reapplied and no original delta is reversed
— so deleting a transaction with a non-zero delta always breaks the §3
invariant where it held. -/
theorem claim_C6_amended_no_balance_restatement
    (st : AppState) (openings : List (String × ℚ)) (t : Transaction) (a : Account)
    (hnodup : (st.transactions.map Transaction.id).Nodup)
    (ht : t ∈ st.transactions) (ha : a ∈ st.accounts) (haid : a.id = t.accountId)
    (hdelta : signedDelta t ≠ 0) (hinv : ledgerInvariant openings st) :
    (∀ tid, (deleteTransactionClick st tid).accounts = st.accounts) ∧
    (∀ e, (commitTransactionEdit st e).accounts = st.accounts) ∧
    (∀ e, (commitTransactionEdit st e).transactions =
      st.transactions.map fun x => if x.id == e.id then e else x) ∧
    (∀ tid, (deleteTransactionClick st tid).transactions =
      st.transactions.filter fun x => !(x.id == tid)) ∧
    ¬ ledgerInvariant openings (deleteTransactionClick st t.id) := by
  refine ⟨fun _ => rfl, fun _ => rfl, fun _ => rfl, fun _ => rfl, ?_⟩
  intro hinv'
  have h1 := hinv a ha
  have h2 := hinv' a ha
  have hshape : (deleteTransactionClick st t.id).transactions =
      st.transactions.filter fun x => !(x.id == t.id) := rfl
  rw [hshape, perAccountDeltaSum_delete hnodup ht a.id haid.symm] at h2
  have : signedDelta t = 0 := by linarith
  exact hdelta this

/-- Witness for C6: the invariant-satisfying one-transaction state. -/
theorem claim_C6_witness :
    (∀ tid, (deleteTransactionClick invState tid).accounts = invState.accounts) ∧
    (∀ e, (commitTransactionEdit invState e).accounts = invState.accounts) ∧
    (∀ e, (commitTransactionEdit invState e).transactions =
      invState.transactions.map fun x => if x.id == e.id then e else x) ∧
    (∀ tid, (deleteTransactionClick invState tid).transactions =
      invState.transactions.filter fun x => !(x.id == tid)) ∧
    ¬ ledgerInvariant invOpenings (deleteTransactionClick invState invTx.id) :=
  claim_C6_amended_no_balance_restatement invState invOpenings invTx invAcct
    (by decide) (by simp [invState]) (by simp [invState]) rfl
    (by simp +decide [signedDelta, invTx])
    (by
      intro a ha
      simp only [invState, List.mem_singleton] at ha
      subst ha
      show invAcct.balance =
        openingOf invOpenings invAcct.id + perAccountDeltaSum [invTx] invAcct.id
      simp +decide [invAcct, invTx, invOpenings, openingOf, perAccountDeltaSum,
        signedDelta, List.filter])

/-- C7 (spec-modelled; the repository only declares the flag fields): staging
never removes or alters a candidate beyond attaching the duplicate flag and
warning text; a candidate is flagged whenever some existing ledger entry has
the same resolved account, the same calendar date, an amount within the
relative tolerance, and a folded-description match; in particular, against
the entry {2024-01-05, account "1", 1200, "Grocery Shopping"} the equal-amount
candidate described "Grocery Shopping at Store" is flagged while the
amount-5000 candidate is not. -/
theorem claim_C7_duplicate_flagging :
    (∀ accounts ledger cs,
      (stageWithDuplicateFlags accounts ledger cs).length = cs.length) ∧
    (∀ accounts ledger cs,
      (stageWithDuplicateFlags accounts ledger cs).map forgetFlags =
        cs.map forgetFlags) ∧
    (∀ accounts ledger c acc t,
      accounts.get? ((resolveIdx accounts c.accountNameMatch).getD 0) = some acc →
      t ∈ ledger → t.accountId = acc.id → t.date = c.date →
      amountNear c.amount t.amount = true →
      descNearMatch c.description t.description = true →
      detectDuplicate accounts ledger c = true) ∧
    detectDuplicate INITIAL_ACCOUNTS [groceryTx] groceryCand = true ∧
    detectDuplicate INITIAL_ACCOUNTS [groceryTx] groceryCand5000 = false := by
  refine ⟨?_, ?_, ?_, ?_, ?_⟩
  · intro accounts ledger cs
    simp [stageWithDuplicateFlags]
  · intro accounts ledger cs
    unfold stageWithDuplicateFlags
    rw [List.map_map]
    apply List.map_congr_left
    intro c _
    by_cases h : detectDuplicate accounts ledger c = true
    · simp [Function.comp, h, forgetFlags]
    · simp [Function.comp, h, forgetFlags]
  · intro accounts ledger c acc t hacc htmem hacct hdate hamt hdesc
    unfold detectDuplicate
    rw [hacc]
    apply List.any_eq_true.mpr
    exact ⟨t, htmem, by simp [isDupOf, hacct, hdate, hamt, hdesc]⟩
  · have hacc : INITIAL_ACCOUNTS.get?
        ((resolveIdx INITIAL_ACCOUNTS groceryCand.accountNameMatch).getD 0) =
        some hdfcInit := rfl
    unfold detectDuplicate
    rw [hacc]
    have hnear : amountNear 1200 1200 = true := by
      simp only [amountNear, decide_eq_true_eq]
      norm_num
    simp +decide [isDupOf, hnear, groceryCand, groceryTx, hdfcInit]
  · have hacc : INITIAL_ACCOUNTS.get?
        ((resolveIdx INITIAL_ACCOUNTS groceryCand5000.accountNameMatch).getD 0) =
        some hdfcInit := rfl
    unfold detectDuplicate
    rw [hacc]
    have hnear : amountNear groceryCand5000.amount groceryTx.amount = false := by
      simp only [amountNear, groceryCand5000, groceryCand, groceryTx,
        decide_eq_false_iff_not]
      norm_num
    simp [isDupOf, hnear]

/-- Witness for C7: the flagged §8 example, derived through the general
flagging condition. -/
theorem claim_C7_witness :
    detectDuplicate INITIAL_ACCOUNTS [groceryTx] groceryCand = true :=
  claim_C7_duplicate_flagging.2.2.1 INITIAL_ACCOUNTS [groceryTx] groceryCand
    hdfcInit groceryTx rfl (by simp) rfl rfl
    (by
      simp only [amountNear, groceryCand, groceryTx, decide_eq_true_eq]
      norm_num)
    (by decide)

end WealthWise
